import Mathlib

/-!
Shallow embedding of the rate-limit-aware download scripts
(`download_vn_stocks.py`, `download_vn30.py`).

Strings are modelled as `List Char`.  Python's case-insensitive
matching (`str.lower()` / `re.IGNORECASE`) is modelled by `charLower`,
which lowercases ASCII letters plus the Vietnamese uppercase letters
occurring in the phrases the scripts match against.
-/

/-- Lowercase a character: ASCII `A`-`Z` plus the Vietnamese uppercase
letters appearing in the matched phrases (`Â` of `GIÂY`, `Á`/`Ề` of
`QUÁ NHIỀU`).  Models Python `str.lower` on the relevant alphabet. -/
def charLower (c : Char) : Char :=
  if 'A' ≤ c ∧ c ≤ 'Z' then Char.ofNat (c.toNat + 32)
  else if c = 'Á' then 'á'
  else if c = 'À' then 'à'
  else if c = 'Â' then 'â'
  else if c = 'Ê' then 'ê'
  else if c = 'Ề' then 'ề'
  else c

/-- Lowercase a string (Python `error_msg.lower()`). -/
def lowerStr (s : List Char) : List Char := s.map charLower

/-- `startsWithL pat s`: `s` begins with `pat`. -/
def startsWithL : List Char → List Char → Bool
  | [], _ => true
  | _ :: _, [] => false
  | p :: ps, c :: cs => p == c && startsWithL ps cs

/-- `containsSub pat s`: `pat` occurs as a contiguous substring of `s`
(Python `pat in s`). -/
def containsSub : List Char → List Char → Bool
  | pat, [] => startsWithL pat []
  | pat, c :: cs => startsWithL pat (c :: cs) || containsSub pat cs

/-- Substring occurrence as a proposition: `s = a ++ pat ++ b`. -/
def ContainsSub (pat s : List Char) : Prop :=
  ∃ a b, s = a ++ pat ++ b

/-- Whitespace characters of the regex class `\s`. -/
def isWS (c : Char) : Bool :=
  c = ' ' || c = '\t' || c = '\n' || c = '\r' ||
  c = Char.ofNat 11 || c = Char.ofNat 12

/-- ASCII digit, regex class `\d`. -/
def isDigitCh (c : Char) : Bool :=
  '0' ≤ c && c ≤ '9'

/-- Match the literal word `w` at the head of `s`, returning the rest. -/
def litP (w s : List Char) : Option (List Char) :=
  if startsWithL w s then some (s.drop w.length) else none

/-- Match `\s+` at the head of `s` (greedy), returning the rest. -/
def ws1 : List Char → Option (List Char)
  | [] => none
  | c :: cs => if isWS c then some (cs.dropWhile isWS) else none

/-- Accumulate a run of digits into a number (decimal). -/
def digitsAux : Nat → List Char → Nat × List Char
  | acc, [] => (acc, [])
  | acc, c :: cs =>
    if isDigitCh c then digitsAux (acc * 10 + (c.toNat - 48)) cs
    else (acc, c :: cs)

/-- Match `(\d+)` at the head of `s` (greedy), returning the captured
number and the rest. -/
def digits1 : List Char → Option (Nat × List Char)
  | [] => none
  | c :: cs =>
    if isDigitCh c then some (digitsAux (c.toNat - 48) cs) else none

/-- Match the regex `(\d+)\s+giây` at the current position. -/
def matchGiay (s : List Char) : Option Nat :=
  (digits1 s).bind fun p =>
    (ws1 p.2).bind fun s2 =>
      (litP ("giây".data) s2).map fun _ => p.1

/-- Match the regex `(\d+)\s+seconds` at the current position. -/
def matchSeconds (s : List Char) : Option Nat :=
  (digits1 s).bind fun p =>
    (ws1 p.2).bind fun s2 =>
      (litP ("seconds".data) s2).map fun _ => p.1

/-- Match the regex `sau\s+(\d+)\s+giây` at the current position. -/
def matchSauGiay (s : List Char) : Option Nat :=
  (litP ("sau".data) s).bind fun s1 =>
    (ws1 s1).bind fun s2 => matchGiay s2

/-- Match the regex `after\s+(\d+)\s+seconds` at the current position. -/
def matchAfterSeconds (s : List Char) : Option Nat :=
  (litP ("after".data) s).bind fun s1 =>
    (ws1 s1).bind fun s2 => matchSeconds s2

/-- `re.search`: try the position matcher `f` at every position of `s`,
left to right, returning the first success. -/
def searchPat (f : List Char → Option Nat) : List Char → Option Nat
  | [] => f []
  | c :: cs =>
    match f (c :: cs) with
    | some n => some n
    | none => searchPat f cs

/-- Search for `sau\s+(\d+)\s+giây`, case-insensitively. -/
def searchSauGiay (msg : List Char) : Option Nat :=
  searchPat matchSauGiay (lowerStr msg)

/-- Search for `after\s+(\d+)\s+seconds`, case-insensitively. -/
def searchAfterSeconds (msg : List Char) : Option Nat :=
  searchPat matchAfterSeconds (lowerStr msg)

/-- Search for `(\d+)\s+giây`, case-insensitively. -/
def searchGiay (msg : List Char) : Option Nat :=
  searchPat matchGiay (lowerStr msg)

/-- Search for `(\d+)\s+seconds`, case-insensitively. -/
def searchSeconds (msg : List Char) : Option Nat :=
  searchPat matchSeconds (lowerStr msg)

/-- `extract_wait_time` (`download_vn_stocks.py` lines 62-78,
`download_vn30.py` lines 29-45): try the four patterns in order and
return the number captured by the first one that matches; `None` when
no pattern matches. -/
def extract_wait_time (msg : List Char) : Option Nat :=
  match searchSauGiay msg with
  | some n => some n
  | none =>
    match searchAfterSeconds msg with
    | some n => some n
    | none =>
      match searchGiay msg with
      | some n => some n
      | none => searchSeconds msg

/-- The inline throttling classifier of `download_symbol_data`
(`download_vn_stocks.py` lines 142-148) and `download_vn30_data`
(`download_vn30.py` lines 204-210): case-insensitive substring test
against four fixed phrases. -/
def is_rate_limit (msg : List Char) : Bool :=
  containsSub ("rate limit".data) (lowerStr msg) ||
  containsSub ("quá nhiều request".data) (lowerStr msg) ||
  containsSub ("too many request".data) (lowerStr msg) ||
  containsSub ("process terminated".data) (lowerStr msg)


/-!
The retry loop of `download_symbol_data` (`download_vn_stocks.py`
lines 100-189) and `download_vn30_data` (`download_vn30.py` lines
153-252; same loop with the symbol fixed to `VN30`).  A single remote
fetch attempt either yields a table (possibly empty: `df is None or
df.empty` is modelled by row count 0) or raises an exception with a
message.  The environment is an oracle giving the result of each
attempt.  The trace records, besides the returned tuple, how many
fetch attempts ran, the backoff waits performed (`wait_with_countdown`
calls), and whether the parquet artifact was written.
-/

/-- Result of one `quote.history` fetch attempt: a table with a row
count and the printed first/last index entries, or an exception text. -/
inductive FetchResult where
  | table (rowCount : Nat) (firstDate lastDate : List Char)
  | exn (msg : List Char)

/-- The tuple `(symbol, success, message, row_count)` returned by the
download functions. -/
structure DlResult where
  symbol : List Char
  success : Bool
  message : List Char
  rowCount : Nat
deriving DecidableEq

/-- Observable trace of one run of the retry loop. -/
structure DlTrace where
  result : DlResult
  attempts : Nat
  waits : List Nat
  wrote : Bool
deriving DecidableEq

/-- Message `"Không có dữ liệu"` of the empty-table branch. -/
def noDataMsg : List Char := "Không có dữ liệu".data

/-- Success message `f"OK: {first_date} -> {last_date}"`. -/
def okMsg (firstDate lastDate : List Char) : List Char :=
  ("OK: ".data) ++ firstDate ++ (" -> ".data) ++ lastDate

/-- Message `f"Failed after {max_retries} attempts"` (line 189). -/
def failedAfterMsg (maxRetries : Nat) : List Char :=
  ("Failed after ".data) ++ (Nat.repr maxRetries).data ++ (" attempts".data)

/-- Message `f"Rate limit (đã retry {max_retries}x): chờ {wait_time}s"`
(line 167), where `wait_time` already includes the +5 buffer. -/
def rateLimitExplicitMsg (maxRetries waitTime : Nat) : List Char :=
  ("Rate limit (đã retry ".data) ++ (Nat.repr maxRetries).data ++
  ("x): chờ ".data) ++ (Nat.repr waitTime).data ++ ("s".data)

/-- Message `f"Rate limit (retried {max_retries}x): {error_msg[:80]}"`
(line 181). -/
def rateLimitBackoffMsg (maxRetries : Nat) (msg : List Char) : List Char :=
  ("Rate limit (retried ".data) ++ (Nat.repr maxRetries).data ++
  ("x): ".data) ++ msg.take 80

/-- Truncation of a non-throttling error message (lines 184-185). -/
def truncateMsg (msg : List Char) : List Char :=
  if msg.length > 100 then msg.take 100 ++ ("...".data) else msg

/-- One step plus recursion of the `for attempt in range(max_retries)`
loop.  `attempt` is the zero-based index of the current attempt, `fuel`
the number of loop iterations still available (`maxRetries - attempt`),
`waits` the backoff waits performed so far. -/
def downloadGo (oracle : Nat → FetchResult) (symbol : List Char)
    (maxRetries : Nat) : Nat → Nat → List Nat → DlTrace
  | attempt, 0, waits =>
    ⟨⟨symbol, false, failedAfterMsg maxRetries, 0⟩, attempt, waits, false⟩
  | attempt, fuel + 1, waits =>
    match oracle attempt with
    | FetchResult.table 0 _ _ =>
      ⟨⟨symbol, false, noDataMsg, 0⟩, attempt + 1, waits, false⟩
    | FetchResult.table (n + 1) firstDate lastDate =>
      ⟨⟨symbol, true, okMsg firstDate lastDate, n + 1⟩, attempt + 1, waits, true⟩
    | FetchResult.exn msg =>
      if is_rate_limit msg then
        match extract_wait_time msg with
        | some n =>
          if attempt < maxRetries - 1 then
            downloadGo oracle symbol maxRetries (attempt + 1) fuel (waits ++ [n + 5])
          else
            ⟨⟨symbol, false, rateLimitExplicitMsg maxRetries (n + 5), 0⟩,
              attempt + 1, waits, false⟩
        | none =>
          if attempt < maxRetries - 1 then
            downloadGo oracle symbol maxRetries (attempt + 1) fuel
              (waits ++ [2 ^ attempt * 15])
          else
            ⟨⟨symbol, false, rateLimitBackoffMsg maxRetries msg, 0⟩,
              attempt + 1, waits, false⟩
      else
        ⟨⟨symbol, false, truncateMsg msg, 0⟩, attempt + 1, waits, false⟩

/-- `download_symbol_data` run against the attempt oracle `oracle`
(`download_vn30_data` is the same loop with `symbol = "VN30"`). -/
def download_symbol_data (oracle : Nat → FetchResult) (symbol : List Char)
    (maxRetries : Nat) : DlTrace :=
  downloadGo oracle symbol maxRetries 0 maxRetries []

/-- An attempt outcome that the loop classifies as throttling. -/
def throttled : FetchResult → Bool
  | FetchResult.table _ _ _ => false
  | FetchResult.exn msg => is_rate_limit msg


/-!
Batch driver (`download_all_symbols`, `download_vn_stocks.py` lines
192-350) and the command-line entry points (`main`, lines 353-405 and
`download_vn30.py` lines 307-358).
-/

/-- `symbols_to_download` (lines 220-222): the symbols from the source
whose artifact `<symbol>.parquet` is not already present; `existing`
is the set of stems of the parquet files in the output directory. -/
def symbols_to_download (symbols existing : List (List Char)) : List (List Char) :=
  symbols.filter fun s => !(existing.contains s)

/-- One batch run, abstracted on which processed items succeed: it
processes `symbols_to_download symbols existing` and the artifact set
afterwards consists of the pre-existing artifacts plus one
`<symbol>.parquet` per successful item (the loop writes the file only
on the success branch, line 131). -/
def runBatch (symbols existing : List (List Char))
    (succeeds : List Char → Bool) : List (List Char) :=
  existing ++ (symbols_to_download symbols existing).filter succeeds

/-- One row of `manifest.csv` (lines 322-330). -/
structure ManifestRecord where
  symbol : List Char
  status : List Char
  message : List Char
  rowCount : Nat
  file : Option (List Char)
deriving DecidableEq

/-- The manifest row built from one per-item result (lines 323-330). -/
def manifestRecord (r : DlResult) : ManifestRecord :=
  ⟨r.symbol,
   if r.success then "SUCCESS".data else "FAILED".data,
   r.message,
   r.rowCount,
   if r.success then some (r.symbol ++ (".parquet".data)) else none⟩

/-- The whole manifest: one record per collected result. -/
def manifestRecords (rs : List DlResult) : List ManifestRecord :=
  rs.map manifestRecord

/-- How a run of a script's entry point ends, as dispatched by the
`try/except` of `main`: normal completion, `KeyboardInterrupt`, or an
unhandled exception. -/
inductive RunOutcome where
  | completed
  | interrupted
  | raised (msg : List Char)

/-- The process exit code produced by `main` (`download_vn_stocks.py`
lines 390-405, `download_vn30.py` lines 343-358): fall-through on
completion (exit 0), `sys.exit(0)` on `KeyboardInterrupt`,
`sys.exit(1)` on any other exception. -/
def mainExitCode : RunOutcome → Nat
  | RunOutcome.completed => 0
  | RunOutcome.interrupted => 0
  | RunOutcome.raised _ => 1

/-- Exit behaviour of `download_vn30` after its single item finishes
(`download_vn30.py` lines 294-304): success falls through (exit 0),
failure calls `sys.exit(1)`. -/
def vn30ExitCode (success : Bool) : Nat :=
  if success then 0 else 1

/-! Helper lemmas about the substring machinery. -/

theorem startsWithL_iff (pat : List Char) :
    ∀ s : List Char, startsWithL pat s = true ↔ ∃ r, s = pat ++ r := by
  induction pat with
  | nil => intro s; simp [startsWithL]
  | cons p ps ih =>
    intro s
    cases s with
    | nil => simp [startsWithL]
    | cons c cs =>
      simp only [startsWithL, Bool.and_eq_true, beq_iff_eq, ih, List.cons_append]
      constructor
      · rintro ⟨rfl, r, rfl⟩
        exact ⟨r, rfl⟩
      · rintro ⟨r, hr⟩
        injection hr with h1 h2
        exact ⟨h1.symm, r, h2⟩

theorem containsSub_iff (pat : List Char) :
    ∀ s : List Char, containsSub pat s = true ↔ ContainsSub pat s := by
  intro s
  induction s with
  | nil =>
    simp only [containsSub, startsWithL_iff, ContainsSub]
    constructor
    · rintro ⟨r, hr⟩
      refine ⟨[], r, ?_⟩
      simpa using hr
    · rintro ⟨a, b, hab⟩
      have h2 : a ++ (pat ++ b) = [] := by
        rw [← List.append_assoc]
        exact hab.symm
      obtain ⟨ha, hpb⟩ := List.append_eq_nil.mp h2
      exact ⟨b, hpb.symm⟩
  | cons c cs ih =>
    simp only [containsSub, Bool.or_eq_true, startsWithL_iff, ih, ContainsSub]
    constructor
    · rintro (⟨r, hr⟩ | ⟨a, b, hab⟩)
      · refine ⟨[], r, ?_⟩
        simpa using hr
      · refine ⟨c :: a, b, ?_⟩
        simp [hab]
    · rintro ⟨a, b, hab⟩
      cases a with
      | nil =>
        left
        refine ⟨b, ?_⟩
        simpa using hab
      | cons x a2 =>
        right
        rw [List.cons_append, List.cons_append] at hab
        injection hab with h1 h2
        exact ⟨a2, b, h2⟩

/-- C4: an error text is classified as throttling if and only if its
lowercased form contains one of the four fixed phrases — "rate limit",
"too many request" (which also matches "too many requests"),
"process terminated", or "quá nhiều request"; every other text falls
to the non-throttling branch. -/
theorem throttling_classification_iff (msg : List Char) :
    is_rate_limit msg = true ↔
      (ContainsSub ("rate limit".data) (lowerStr msg) ∨
       ContainsSub ("too many request".data) (lowerStr msg) ∨
       ContainsSub ("process terminated".data) (lowerStr msg) ∨
       ContainsSub ("quá nhiều request".data) (lowerStr msg)) := by
  simp only [is_rate_limit, Bool.or_eq_true, containsSub_iff]
  tauto

/-! Helper lemmas about the retry loop. -/

theorem downloadGo_attempts_le (oracle : Nat → FetchResult) (symbol : List Char)
    (maxRetries : Nat) :
    ∀ fuel attempt waits,
      (downloadGo oracle symbol maxRetries attempt fuel waits).attempts ≤ attempt + fuel := by
  intro fuel
  induction fuel with
  | zero =>
    intro a ws
    simp [downloadGo]
  | succ k ih =>
    intro a ws
    simp only [downloadGo]
    split
    · show a + 1 ≤ a + (k + 1)
      omega
    · show a + 1 ≤ a + (k + 1)
      omega
    · split
      · split
        · split
          · exact le_trans (ih (a + 1) _) (by omega)
          · show a + 1 ≤ a + (k + 1)
            omega
        · split
          · exact le_trans (ih (a + 1) _) (by omega)
          · show a + 1 ≤ a + (k + 1)
            omega
      · show a + 1 ≤ a + (k + 1)
        omega

theorem downloadGo_all_throttled (oracle : Nat → FetchResult) (symbol : List Char)
    (maxRetries : Nat) (hthr : ∀ i, throttled (oracle i) = true) :
    ∀ fuel attempt waits, attempt + fuel = maxRetries →
      (downloadGo oracle symbol maxRetries attempt fuel waits).attempts = maxRetries ∧
      (downloadGo oracle symbol maxRetries attempt fuel waits).result.success = false := by
  intro fuel
  induction fuel with
  | zero =>
    intro a ws h
    refine ⟨?_, ?_⟩
    · show a = maxRetries
      omega
    · rfl
  | succ k ih =>
    intro a ws h
    have hor := hthr a
    cases hx : oracle a with
    | table n fd ld =>
      rw [hx] at hor
      simp [throttled] at hor
    | exn msg =>
      rw [hx] at hor
      have hrl : is_rate_limit msg = true := by
        simpa [throttled] using hor
      simp only [downloadGo, hx, hrl, if_true]
      cases hew : extract_wait_time msg with
      | some n =>
        by_cases hlt : a < maxRetries - 1
        · simp only [if_pos hlt]
          exact ih (a + 1) _ (by omega)
        · simp only [if_neg hlt]
          refine ⟨?_, ?_⟩
          · show a + 1 = maxRetries
            omega
          · trivial
      | none =>
        by_cases hlt : a < maxRetries - 1
        · simp only [if_pos hlt]
          exact ih (a + 1) _ (by omega)
        · simp only [if_neg hlt]
          refine ⟨?_, ?_⟩
          · show a + 1 = maxRetries
            omega
          · trivial

/-- C1: the retry loop performs at most `maxRetries` fetch attempts,
and when every attempt raises a throttling-classified error it performs
exactly `maxRetries` attempts and ends in a FAILED result. -/
theorem retry_loop_attempt_bound (oracle : Nat → FetchResult) (symbol : List Char)
    (maxRetries : Nat) :
    (download_symbol_data oracle symbol maxRetries).attempts ≤ maxRetries ∧
    ((∀ i, throttled (oracle i) = true) →
      (download_symbol_data oracle symbol maxRetries).attempts = maxRetries ∧
      (download_symbol_data oracle symbol maxRetries).result.success = false) := by
  constructor
  · have h := downloadGo_attempts_le oracle symbol maxRetries maxRetries 0 []
    simpa [download_symbol_data] using h
  · intro hthr
    exact downloadGo_all_throttled oracle symbol maxRetries hthr maxRetries 0 [] (by omega)

/-- Witness for C1: with every attempt raising `"rate limit"` and the
default bound 5, exactly 5 attempts are made and the result is FAILED. -/
theorem retry_loop_attempt_bound_witness :
    (download_symbol_data (fun _ => FetchResult.exn ("rate limit".data))
        ("ABC".data) 5).attempts = 5 ∧
    (download_symbol_data (fun _ => FetchResult.exn ("rate limit".data))
        ("ABC".data) 5).result.success = false :=
  (retry_loop_attempt_bound (fun _ => FetchResult.exn ("rate limit".data))
      ("ABC".data) 5).2 (fun _ => by decide)

theorem downloadGo_waits_append (oracle : Nat → FetchResult) (symbol : List Char)
    (maxRetries : Nat) :
    ∀ fuel attempt waits, ∃ tl,
      (downloadGo oracle symbol maxRetries attempt fuel waits).waits = waits ++ tl := by
  intro fuel
  induction fuel with
  | zero =>
    intro a ws
    exact ⟨[], by simp [downloadGo]⟩
  | succ k ih =>
    intro a ws
    simp only [downloadGo]
    split
    · exact ⟨[], by simp⟩
    · exact ⟨[], by simp⟩
    · split
      · split
        · split
          · rename_i n hn hlt
            obtain ⟨tl, htl⟩ := ih (a + 1) (ws ++ [n + 5])
            exact ⟨(n + 5) :: tl, by rw [htl, List.append_assoc]; simp⟩
          · exact ⟨[], by simp⟩
        · split
          · obtain ⟨tl, htl⟩ := ih (a + 1) (ws ++ [2 ^ a * 15])
            exact ⟨(2 ^ a * 15) :: tl, by rw [htl, List.append_assoc]; simp⟩
          · exact ⟨[], by simp⟩
      · exact ⟨[], by simp⟩

theorem downloadGo_backoff_waits (symbol msg : List Char) (maxRetries : Nat)
    (hrl : is_rate_limit msg = true) (hew : extract_wait_time msg = none) :
    ∀ fuel attempt waits, attempt + fuel = maxRetries →
      (downloadGo (fun _ => FetchResult.exn msg) symbol maxRetries attempt fuel waits).waits =
        waits ++ (List.range (fuel - 1)).map (fun j => 2 ^ (attempt + j) * 15) := by
  intro fuel
  induction fuel with
  | zero =>
    intro a ws h
    simp [downloadGo]
  | succ k ih =>
    intro a ws h
    simp only [downloadGo, hrl, hew, if_true]
    cases k with
    | zero =>
      have hlt : ¬ a < maxRetries - 1 := by omega
      simp [hlt]
    | succ m =>
      have hlt : a < maxRetries - 1 := by omega
      simp only [if_pos hlt]
      rw [ih (a + 1) (ws ++ [2 ^ a * 15]) (by omega)]
      rw [List.append_assoc]
      congr 1
      show 2 ^ a * 15 :: (List.range (m + 1 - 1 + 1 - 1)).map
          (fun j => 2 ^ (a + 1 + j) * 15) =
        (List.range (m + 1)).map (fun j => 2 ^ (a + j) * 15)
      rw [List.range_succ_eq_map, List.map_cons, List.map_map]
      simp only [Nat.add_zero]
      congr 1
      refine List.map_congr_left ?_
      intro x _
      simp only [Function.comp_apply]
      have hax : a + 1 + x = a + Nat.succ x := by omega
      rw [hax]

/-- C3: when a throttling-classified error text carries no numeric wait
hint, the wait performed before the retry at zero-based attempt index
`i` is `15 * 2 ^ i`; over a whole run the recorded waits are exactly
`15 * 2 ^ 0, 15 * 2 ^ 1, …` up to attempt index `maxRetries - 2` (the
last attempt returns without waiting). -/
theorem implicit_backoff_waits (msg symbol : List Char) (maxRetries : Nat)
    (hrl : is_rate_limit msg = true) (hew : extract_wait_time msg = none) :
    (download_symbol_data (fun _ => FetchResult.exn msg) symbol maxRetries).waits =
      (List.range (maxRetries - 1)).map (fun i => 15 * 2 ^ i) := by
  have h := downloadGo_backoff_waits symbol msg maxRetries hrl hew maxRetries 0 [] (by omega)
  simp only [download_symbol_data]
  rw [h, List.nil_append]
  refine List.map_congr_left ?_
  intro x _
  rw [Nat.zero_add, Nat.mul_comm]

/-- Witness for C3: a text classified as throttling with no numeric
hint and the default bound 5 produces the waits 15, 30, 60, 120. -/
theorem implicit_backoff_waits_witness :
    (download_symbol_data (fun _ => FetchResult.exn ("rate limit".data))
        ("ABC".data) 5).waits = [15, 30, 60, 120] := by
  rw [implicit_backoff_waits ("rate limit".data) ("ABC".data) 5 (by decide) (by decide)]
  decide

theorem downloadGo_step_throttle_some (oracle : Nat → FetchResult)
    (symbol msg : List Char) (maxRetries attempt fuel n : Nat) (waits : List Nat)
    (hx : oracle attempt = FetchResult.exn msg) (hrl : is_rate_limit msg = true)
    (hew : extract_wait_time msg = some n) (hlt : attempt < maxRetries - 1) :
    downloadGo oracle symbol maxRetries attempt (fuel + 1) waits =
      downloadGo oracle symbol maxRetries (attempt + 1) fuel (waits ++ [n + 5]) := by
  conv_lhs => rw [downloadGo]
  simp only [hx, hrl, hew, if_true, if_pos hlt]

/-- C2 (amended): for every throttling-classified error text from which
`extract_wait_time` extracts the hint `n` — the capture of the first
matching pattern in the fixed order — the wait performed before the
first retry is exactly `n + 5` seconds. -/
theorem explicit_wait_plus_five (msg symbol : List Char) (maxRetries n : Nat)
    (hrl : is_rate_limit msg = true) (hew : extract_wait_time msg = some n)
    (hmr : 2 ≤ maxRetries) :
    (download_symbol_data (fun _ => FetchResult.exn msg) symbol maxRetries).waits.head? =
      some (n + 5) := by
  obtain ⟨k, rfl⟩ : ∃ k, maxRetries = k + 2 := ⟨maxRetries - 2, by omega⟩
  have hlt : 0 < k + 2 - 1 := by omega
  show (downloadGo (fun _ => FetchResult.exn msg) symbol (k + 2) 0 (k + 1 + 1)
      []).waits.head? = some (n + 5)
  rw [downloadGo_step_throttle_some (fun _ => FetchResult.exn msg) symbol msg (k + 2)
      0 (k + 1) n [] rfl hrl hew hlt]
  obtain ⟨tl, htl⟩ :=
    downloadGo_waits_append (fun _ => FetchResult.exn msg) symbol (k + 2) (k + 1)
      (0 + 1) ([] ++ [n + 5])
  rw [htl]
  simp

/-- Witness for C2's amended claim: the text
`"rate limit after 10 seconds"` (single hint, `after`-phrasing) yields
a first wait of exactly 15 seconds. -/
theorem explicit_wait_plus_five_witness :
    (download_symbol_data
        (fun _ => FetchResult.exn ("rate limit after 10 seconds".data))
        ("ABC".data) 5).waits.head? = some 15 :=
  explicit_wait_plus_five ("rate limit after 10 seconds".data) ("ABC".data) 5 10
    (by decide) (by decide) (by omega)

/-- Counterexample to C2 as stated: the throttling text
`"rate limit sau 3 giây after 10 seconds"` contains the phrase
`"after 10 seconds"`, yet the extracted hint is 3 (the `sau N giây`
pattern is tried first), so the computed wait is 8 seconds, not 15. -/
theorem explicit_wait_after_ten_counterexample :
    is_rate_limit ("rate limit sau 3 giây after 10 seconds".data) = true ∧
    containsSub ("after 10 seconds".data)
      (lowerStr ("rate limit sau 3 giây after 10 seconds".data)) = true ∧
    extract_wait_time ("rate limit sau 3 giây after 10 seconds".data) = some 3 ∧
    (download_symbol_data
        (fun _ => FetchResult.exn ("rate limit sau 3 giây after 10 seconds".data))
        ("ABC".data) 5).waits.head? = some 8 ∧
    ¬ ((download_symbol_data
        (fun _ => FetchResult.exn ("rate limit sau 3 giây after 10 seconds".data))
        ("ABC".data) 5).waits.head? = some 15) := by
  refine ⟨by decide, by decide, by decide, ?_, ?_⟩ <;> decide

/-- C5: a fetch error matching no throttling phrase ends the loop after
exactly one attempt, with no wait, no artifact, and a FAILED result
whose message is the error text, truncated to 100 characters plus
`"..."` when longer. -/
theorem other_failure_single_attempt (oracle : Nat → FetchResult)
    (symbol msg : List Char) (maxRetries : Nat)
    (h0 : oracle 0 = FetchResult.exn msg) (hrl : is_rate_limit msg = false)
    (hmr : 1 ≤ maxRetries) :
    download_symbol_data oracle symbol maxRetries =
      ⟨⟨symbol, false,
        (if msg.length > 100 then msg.take 100 ++ ("...".data) else msg), 0⟩,
        1, [], false⟩ := by
  obtain ⟨k, rfl⟩ : ∃ k, maxRetries = k + 1 := ⟨maxRetries - 1, by omega⟩
  simp [download_symbol_data, downloadGo, h0, hrl, truncateMsg]

/-- Witness for C5: a fetch raising `"invalid symbol"` fails after
exactly one attempt with that exact message and no wait. -/
theorem other_failure_single_attempt_witness :
    download_symbol_data (fun _ => FetchResult.exn ("invalid symbol".data))
        ("ABC".data) 5 =
      ⟨⟨"ABC".data, false, "invalid symbol".data, 0⟩, 1, [], false⟩ :=
  (other_failure_single_attempt (fun _ => FetchResult.exn ("invalid symbol".data))
      ("ABC".data) ("invalid symbol".data) 5 rfl (by decide) (by omega)).trans
    (by decide)

/-- C6: a fetch returning an empty or absent row set ends the loop
immediately on that attempt with the FAILED no-data message, row count
0, no retry, no wait, and no artifact written. -/
theorem nodata_single_attempt (oracle : Nat → FetchResult)
    (symbol firstDate lastDate : List Char) (maxRetries : Nat)
    (h0 : oracle 0 = FetchResult.table 0 firstDate lastDate)
    (hmr : 1 ≤ maxRetries) :
    download_symbol_data oracle symbol maxRetries =
      ⟨⟨symbol, false, noDataMsg, 0⟩, 1, [], false⟩ := by
  obtain ⟨k, rfl⟩ : ∃ k, maxRetries = k + 1 := ⟨maxRetries - 1, by omega⟩
  simp [download_symbol_data, downloadGo, h0]

/-- Witness for C6: an empty table on the first attempt yields the
terminal no-data failure after exactly one attempt. -/
theorem nodata_single_attempt_witness :
    download_symbol_data (fun _ => FetchResult.table 0 [] []) ("ABC".data) 5 =
      ⟨⟨"ABC".data, false, noDataMsg, 0⟩, 1, [], false⟩ :=
  nodata_single_attempt (fun _ => FetchResult.table 0 [] []) ("ABC".data) [] [] 5
    rfl (by omega)

/-- C7 (amended): the driver processes exactly the symbols whose
artifact does not already exist, and a second run processes zero Work
Items provided every item processed by the first run succeeded (only
the success branch writes an artifact). -/
theorem resume_skips_existing (symbols existing : List (List Char))
    (succeeds : List Char → Bool) :
    (∀ s, s ∈ symbols_to_download symbols existing ↔ (s ∈ symbols ∧ s ∉ existing)) ∧
    ((∀ s ∈ symbols_to_download symbols existing, succeeds s = true) →
      symbols_to_download symbols (runBatch symbols existing succeeds) = []) := by
  have hmem : ∀ (ex : List (List Char)) (s : List Char),
      s ∈ symbols_to_download symbols ex ↔ (s ∈ symbols ∧ s ∉ ex) := by
    intro ex s
    simp [symbols_to_download, List.mem_filter, List.contains]
  refine ⟨hmem existing, ?_⟩
  intro hall
  show List.filter _ symbols = []
  rw [List.filter_eq_nil_iff]
  intro s hs
  simp only [Bool.not_eq_true', Bool.not_eq_true, List.contains, List.elem_eq_mem,
    decide_eq_false_iff_not, Decidable.not_not]
  have hsmem : s ∈ existing ∨ s ∉ existing := em (s ∈ existing)
  rcases hsmem with hex | hex
  · exact List.mem_append_left _ hex
  · refine List.mem_append_right _ ?_
    rw [List.mem_filter]
    exact ⟨(hmem existing s).mpr ⟨hs, hex⟩, hall s ((hmem existing s).mpr ⟨hs, hex⟩)⟩

/-- Witness for C7's amended claim: one symbol, no pre-existing
artifact, first run succeeds on everything it processes — the second
run has nothing left to process. -/
theorem resume_skips_existing_witness :
    symbols_to_download (["AAA".data]) [] = ["AAA".data] ∧
    symbols_to_download (["AAA".data])
      (runBatch (["AAA".data]) [] (fun _ => true)) = [] :=
  ⟨by decide,
    (resume_skips_existing (["AAA".data]) [] (fun _ => true)).2 (fun _ _ => rfl)⟩

/-- Counterexample to C7 as stated: when the only item of the first run
fails (so no artifact is written), the second run with unchanged data
processes that item again — one Work Item, not zero. -/
theorem resume_second_run_counterexample :
    symbols_to_download (["AAA".data]) [] = ["AAA".data] ∧
    symbols_to_download (["AAA".data])
        (runBatch (["AAA".data]) [] (fun _ => false)) = ["AAA".data] ∧
    symbols_to_download (["AAA".data])
        (runBatch (["AAA".data]) [] (fun _ => false)) ≠ [] := by
  refine ⟨by decide, by decide, by decide⟩

/-! Helper lemmas about the pattern matchers, for C10. -/

theorem litP_some (w s r : List Char) (h : litP w s = some r) : s = w ++ r := by
  unfold litP at h
  split at h
  · rename_i hsw
    obtain ⟨r2, rfl⟩ := (startsWithL_iff w s).mp hsw
    rw [List.drop_left] at h
    injection h with h2
    rw [h2]
  · exact absurd h (by simp)

theorem ws1_some (s r : List Char) (h : ws1 s = some r) : ∃ w, s = w ++ r := by
  cases s with
  | nil => simp [ws1] at h
  | cons c cs =>
    simp only [ws1] at h
    split at h
    · injection h with h2
      refine ⟨c :: cs.takeWhile isWS, ?_⟩
      rw [← h2, List.cons_append, List.takeWhile_append_dropWhile]
    · exact absurd h (by simp)

theorem matchGiay_of_sau (t : List Char) (n : Nat) (h : matchSauGiay t = some n) :
    ∃ a t2, t = a ++ t2 ∧ matchGiay t2 = some n := by
  unfold matchSauGiay at h
  rw [Option.bind_eq_some] at h
  obtain ⟨s1, h1, h2⟩ := h
  rw [Option.bind_eq_some] at h2
  obtain ⟨s2, h3, h4⟩ := h2
  have e1 := litP_some _ _ _ h1
  obtain ⟨w, e2⟩ := ws1_some _ _ h3
  exact ⟨("sau".data) ++ w, s2, by rw [e1, e2, List.append_assoc], h4⟩

theorem matchSeconds_of_after (t : List Char) (n : Nat)
    (h : matchAfterSeconds t = some n) :
    ∃ a t2, t = a ++ t2 ∧ matchSeconds t2 = some n := by
  unfold matchAfterSeconds at h
  rw [Option.bind_eq_some] at h
  obtain ⟨s1, h1, h2⟩ := h
  rw [Option.bind_eq_some] at h2
  obtain ⟨s2, h3, h4⟩ := h2
  have e1 := litP_some _ _ _ h1
  obtain ⟨w, e2⟩ := ws1_some _ _ h3
  exact ⟨("after".data) ++ w, s2, by rw [e1, e2, List.append_assoc], h4⟩

theorem searchPat_isSome_iff (f : List Char → Option Nat) :
    ∀ s, (searchPat f s).isSome = true ↔
      ∃ a t, s = a ++ t ∧ (f t).isSome = true := by
  intro s
  induction s with
  | nil =>
    simp only [searchPat]
    constructor
    · intro h
      exact ⟨[], [], rfl, h⟩
    · rintro ⟨a, t, hat, hf⟩
      obtain ⟨ha, ht⟩ := List.append_eq_nil.mp hat.symm
      subst ha
      subst ht
      exact hf
  | cons c cs ih =>
    cases hf : f (c :: cs) with
    | some n =>
      constructor
      · intro _
        exact ⟨[], c :: cs, rfl, by rw [hf]; rfl⟩
      · intro _
        simp [searchPat, hf]
    | none =>
      have hred : searchPat f (c :: cs) = searchPat f cs := by
        simp [searchPat, hf]
      rw [hred, ih]
      constructor
      · rintro ⟨a, t, hat, hft⟩
        exact ⟨c :: a, t, by rw [List.cons_append, hat], hft⟩
      · rintro ⟨a, t, hat, hft⟩
        cases a with
        | nil =>
          simp only [List.nil_append] at hat
          rw [← hat, hf] at hft
          simp at hft
        | cons x a2 =>
          rw [List.cons_append] at hat
          injection hat with hxc hcs
          exact ⟨a2, t, hcs, hft⟩

theorem searchGiay_isSome_of_sau (msg : List Char) (n : Nat)
    (h : searchSauGiay msg = some n) : (searchGiay msg).isSome = true := by
  have h1 : (searchPat matchSauGiay (lowerStr msg)).isSome = true := by
    unfold searchSauGiay at h
    rw [h]
    rfl
  obtain ⟨a, t, hat, hft⟩ := (searchPat_isSome_iff matchSauGiay (lowerStr msg)).mp h1
  obtain ⟨m, hm⟩ := Option.isSome_iff_exists.mp hft
  obtain ⟨a2, t2, ht2, hg⟩ := matchGiay_of_sau t m hm
  refine (searchPat_isSome_iff matchGiay (lowerStr msg)).mpr ?_
  exact ⟨a ++ a2, t2, by rw [hat, ht2, List.append_assoc], by rw [hg]; rfl⟩

theorem searchSeconds_isSome_of_after (msg : List Char) (n : Nat)
    (h : searchAfterSeconds msg = some n) : (searchSeconds msg).isSome = true := by
  have h1 : (searchPat matchAfterSeconds (lowerStr msg)).isSome = true := by
    unfold searchAfterSeconds at h
    rw [h]
    rfl
  obtain ⟨a, t, hat, hft⟩ :=
    (searchPat_isSome_iff matchAfterSeconds (lowerStr msg)).mp h1
  obtain ⟨m, hm⟩ := Option.isSome_iff_exists.mp hft
  obtain ⟨a2, t2, ht2, hg⟩ := matchSeconds_of_after t m hm
  refine (searchPat_isSome_iff matchSeconds (lowerStr msg)).mpr ?_
  exact ⟨a ++ a2, t2, by rw [hat, ht2, List.append_assoc], by rw [hg]; rfl⟩

/-- C10: `extract_wait_time` is the priority chain over the four
pattern searches in their fixed order; a hint is found if and only if
one of the two bare patterns (a number followed by `giây` or by
`seconds`) matches — the `sau`/`after` phrasings are special cases —
and it returns `none` exactly when no pattern matches. -/
theorem extract_wait_time_pattern_order (msg : List Char) :
    (extract_wait_time msg =
      (searchSauGiay msg).orElse (fun _ =>
        (searchAfterSeconds msg).orElse (fun _ =>
          (searchGiay msg).orElse (fun _ => searchSeconds msg)))) ∧
    ((extract_wait_time msg).isSome = true ↔
      ((searchGiay msg).isSome = true ∨ (searchSeconds msg).isSome = true)) ∧
    (extract_wait_time msg = none ↔
      (searchSauGiay msg = none ∧ searchAfterSeconds msg = none ∧
       searchGiay msg = none ∧ searchSeconds msg = none)) := by
  refine ⟨?_, ?_, ?_⟩
  · cases h1 : searchSauGiay msg <;> cases h2 : searchAfterSeconds msg <;>
      cases h3 : searchGiay msg <;>
      simp [extract_wait_time, h1, h2, h3, Option.orElse]
  · constructor
    · intro h
      cases h1 : searchSauGiay msg with
      | some n => exact Or.inl (searchGiay_isSome_of_sau msg n h1)
      | none =>
        cases h2 : searchAfterSeconds msg with
        | some n => exact Or.inr (searchSeconds_isSome_of_after msg n h2)
        | none =>
          cases h3 : searchGiay msg with
          | some n => exact Or.inl rfl
          | none =>
            refine Or.inr ?_
            have he : extract_wait_time msg = searchSeconds msg := by
              simp [extract_wait_time, h1, h2, h3]
            rwa [he] at h
    · intro h
      cases h1 : searchSauGiay msg with
      | some n => simp [extract_wait_time, h1]
      | none =>
        cases h2 : searchAfterSeconds msg with
        | some n => simp [extract_wait_time, h1, h2]
        | none =>
          cases h3 : searchGiay msg with
          | some n => simp [extract_wait_time, h1, h2, h3]
          | none =>
            rcases h with h | h
            · rw [h3] at h
              simp at h
            · have he : extract_wait_time msg = searchSeconds msg := by
                simp [extract_wait_time, h1, h2, h3]
              rwa [he]
  · cases h1 : searchSauGiay msg <;> cases h2 : searchAfterSeconds msg <;>
      cases h3 : searchGiay msg <;> cases h4 : searchSeconds msg <;>
      simp [extract_wait_time, h1, h2, h3, h4]

/-- C8 (amended): the entry point exits 0 on normal completion and
also 0 on a user interrupt (`KeyboardInterrupt` is caught and mapped to
`sys.exit(0)`); it exits 1 exactly on an unhandled exception.  The
batch driver aggregates every per-item result into the manifest (one
record per result, FAILED items included) without raising, and the
VN30 script additionally exits 1 when its single item fails. -/
theorem exit_code_dispatch :
    mainExitCode RunOutcome.completed = 0 ∧
    mainExitCode RunOutcome.interrupted = 0 ∧
    (∀ m, mainExitCode (RunOutcome.raised m) = 1) ∧
    (∀ rs : List DlResult, (manifestRecords rs).length = rs.length) ∧
    vn30ExitCode true = 0 ∧ vn30ExitCode false = 1 := by
  refine ⟨rfl, rfl, fun m => rfl, fun rs => ?_, rfl, rfl⟩
  simp [manifestRecords]

/-- Counterexample to C8 as stated: a user interrupt yields exit code
0, not nonzero (and, for the VN30 script, a FAILED single item yields
exit code 1, not 0). -/
theorem exit_code_interrupt_counterexample :
    mainExitCode RunOutcome.interrupted = 0 ∧
    ¬ (mainExitCode RunOutcome.interrupted ≠ 0) ∧
    vn30ExitCode false = 1 := by
  refine ⟨rfl, fun h => h rfl, rfl⟩
